import Mathlib

/-!
Shallow embedding of the generic reduction engine in
src/numpy/core/src/umath/reduction.c.

An N-dimensional array is modelled as a shape (list of extents) together
with a total function from multi-indices (lists of coordinates, one per
axis) to element values; strides and the raw data pointer are absorbed
into that function.  The external collaborators (the NpyIter traversal
primitive, PyArray_CopyInto, PyArray_FillWithScalar, the caller-supplied
inner-loop kernel, and the floating-point status interface) are modelled
as succeeding: the inner loop is an abstract binary accumulation
function folded over the selection of operand elements that feed each
output element, in the engine's seeded-slice-first order.  Host-level
errors raised by this file's code are modelled with an explicit error
type mirroring the PyErr_Format call sites.
-/

namespace Reduction

/-- An N-dimensional array view: extents per axis plus an element lookup
by multi-index (a list of per-axis coordinates). -/
structure Arr (α : Type) where
  shape : List Nat
  data : List Nat → α

/-- The error kinds raised by reduction.c, one per PyErr_Format site:
zero-size-array-without-identity (reduction.c:96), non-reorderable
multi-axis (reduction.c:205), where-mask without identity
(reduction.c:213), and output-rank mismatch (reduction.c:277/284).
Every kind records the operation name; the output-rank mismatch also
records the keepdims flag (the two C messages differ exactly in the
keepdims phrasing) and the found and expected ranks. -/
inductive ReduceError where
  | emptyReduction (funcname : String)
  | nonReorderableMultiAxis (funcname : String)
  | whereWithoutIdentity (funcname : String)
  | outputShapeMismatch (funcname : String) (keepdims : Bool) (found expected : Nat)
deriving DecidableEq, Repr

/-- Whether the object returned by the driver is the caller-supplied
"out" array or the iterator-allocated result: models the pointer
substitution at reduction.c:360-362. -/
inductive ResultOrigin where
  | callerOut
  | engineAllocated
deriving DecidableEq, Repr

/-- A successful reduction: which object is returned, its shape and
element values, and the skip_first_count that was handed to the
inner-loop callback. -/
structure ReduceOk (α : Type) where
  origin : ResultOrigin
  shape : List Nat
  data : List Nat → α
  skipFirstCount : Nat

/-- count_axes (reduction.c:31-43): the number of true entries in
axis_flags. -/
def count_axes : List Bool → Nat
  | [] => 0
  | f :: fs => (if f then 1 else 0) + count_axes fs

/-- The final value of curr_axis in the result-axes mapping loop
(reduction.c:257-272): each flagged axis contributes 1 when keepdims
and 0 otherwise; each unflagged axis contributes 1. -/
def resultAxesCount : List Bool → Bool → Nat
  | [], _ => 0
  | f :: fs, keepdims =>
      (if f then (if keepdims then 1 else 0) else 1) + resultAxesCount fs keepdims

/-- The shape of the reduction result: flagged axes become extent 1
(keepdims) or are dropped; unflagged axes keep their extent. -/
def reduceOutShape : List Nat → List Bool → Bool → List Nat
  | [], _, _ => []
  | n :: ns, flags, keepdims =>
      if flags.headD false then
        if keepdims then 1 :: reduceOutShape ns flags.tail keepdims
        else reduceOutShape ns flags.tail keepdims
      else n :: reduceOutShape ns flags.tail keepdims

/-- Map an index into the result (keepdims or squeezed layout, per the
view built at reduction.c:101-112) back to an operand index: flagged
axes read coordinate 0 (the view has extent 1 and stride 0 there, or is
dropped entirely), unflagged axes pass the coordinate through. -/
def expandIndex : List Bool → Bool → List Nat → List Nat
  | [], _, _ => []
  | f :: fs, keepdims, ix =>
      if f then
        if keepdims then 0 :: expandIndex fs keepdims ix.tail
        else 0 :: expandIndex fs keepdims ix
      else ix.headD 0 :: expandIndex fs keepdims ix.tail

/-- The operand indices that feed one output element: flagged axes range
over their full extent (in order, coordinate 0 first), unflagged axes
are pinned to the base coordinate.  The base index is expected in
operand rank (flagged coordinates 0), as produced by expandIndex. -/
def selIndices : List Nat → List Bool → List Nat → List (List Nat)
  | [], _, _ => [[]]
  | n :: ns, flags, base =>
      if flags.headD false then
        (List.range n).foldr
          (fun i acc =>
            (selIndices ns flags.tail base.tail).map (fun ix => i :: ix) ++ acc) []
      else
        (selIndices ns flags.tail base.tail).map (fun ix => base.headD 0 :: ix)

/-- The axis scan of PyArray_CopyInitialReduceValues (reduction.c:93-113)
over the zipped (extent, flag) pairs: raises the empty-reduction error
at the first flagged axis of extent zero, otherwise yields the shape of
the first-slice view together with the accumulated size (the product of
the unflagged extents, reduction.c:108). -/
def buildInitialView (funcname : String) (keepdims : Bool) :
    List (Nat × Bool) → Except ReduceError (List Nat × Nat)
  | [] => .ok ([], 1)
  | (n, f) :: rest =>
      if f then
        if n = 0 then .error (.emptyReduction funcname)
        else
          match buildInitialView funcname keepdims rest with
          | .error e => .error e
          | .ok (sh, size) => .ok ((if keepdims then 1 :: sh else sh), size)
      else
        match buildInitialView funcname keepdims rest with
        | .error e => .error e
        | .ok (sh, size) => .ok (n :: sh, size * n)

/-- The product of the extents of the non-reduced (unflagged) axes,
stated the way section 4.2 of the specification states the seeder's
return value.  buildInitialView is proved to return exactly this. -/
def nonReducedProduct (shape : List Nat) (axis_flags : List Bool) : Nat :=
  (((shape.zip axis_flags).filter (fun p => !p.2)).map Prod.fst).prod

/-- PyArray_CopyInitialReduceValues (reduction.c:71-141).  Scans the
axes first (raising on a flagged zero-extent axis before anything is
copied), then copies the first-slice view of the operand into the
result and returns the size.  The C function mutates result in place
and returns an int (-1 on error); here it returns the error option, the
result array after the call, and the size (0 standing for the C -1). -/
def PyArray_CopyInitialReduceValues {α : Type} (result operand : Arr α)
    (axis_flags : List Bool) (funcname : String) (keepdims : Bool) :
    Option ReduceError × Arr α × Nat :=
  match buildInitialView funcname keepdims (operand.shape.zip axis_flags) with
  | .error e => (some e, result, 0)
  | .ok (_viewShape, size) =>
      (none,
       { shape := result.shape,
         data := fun ix => operand.data (expandIndex axis_flags keepdims ix) },
       size)

/-- The traversal loop (reduction.c:330-352) as a per-output-element
fold: each output element folds the caller's accumulation function over
its selection of operand elements, starting from the seeded value.
When skip_first_count is non-zero the first slice (flagged coordinates
all 0, the selection's first element) was already consumed by seeding
and is skipped, exactly the contract of the skip_first_count argument
passed to the loop at reduction.c:348-349. -/
def iterateLoop {α : Type} (seeded operand : Arr α) (axis_flags : List Bool)
    (keepdims : Bool) (combine : α → α → α) (skip_first_count : Nat) : Arr α :=
  { shape := seeded.shape,
    data := fun outIx =>
      (if skip_first_count ≠ 0 then
          (selIndices operand.shape axis_flags (expandIndex axis_flags keepdims outIx)).drop 1
        else
          selIndices operand.shape axis_flags (expandIndex axis_flags keepdims outIx)).foldl
        (fun acc j => combine acc (operand.data j)) (seeded.data outIx) }

/-- The seeding and iteration stages of PyUFunc_ReduceWrapper
(reduction.c:308-352): with an identity the result binding is filled
with it and the loop receives skip_first_count = 0 (it stays at its
initialization, reduction.c:195); without one,
PyArray_CopyInitialReduceValues seeds the binding and its return value
is handed to the loop. -/
def reduceCore {α : Type} (operand binding : Arr α) (origin : ResultOrigin)
    (axis_flags : List Bool) (keepdims : Bool) (identity : Option α)
    (combine : α → α → α) (funcname : String) : Except ReduceError (ReduceOk α) :=
  match identity with
  | some v =>
      let seeded : Arr α := { shape := binding.shape, data := fun _ => v }
      .ok { origin := origin,
            shape := (iterateLoop seeded operand axis_flags keepdims combine 0).shape,
            data := (iterateLoop seeded operand axis_flags keepdims combine 0).data,
            skipFirstCount := 0 }
  | none =>
      match PyArray_CopyInitialReduceValues binding operand axis_flags funcname keepdims with
      | (some e, _, _) => .error e
      | (none, seeded, skip) =>
          .ok { origin := origin,
                shape := (iterateLoop seeded operand axis_flags keepdims combine skip).shape,
                data := (iterateLoop seeded operand axis_flags keepdims combine skip).data,
                skipFirstCount := skip }

/-- PyUFunc_ReduceWrapper (reduction.c:184-377), in the order of the C
code: the non-reorderable multi-axis check (reduction.c:204), the
where-mask-without-identity check (reduction.c:212), the output-rank
check against the final curr_axis (reduction.c:273-291), then seeding
and iteration.  On success the returned object is the caller's out
array when one was supplied (reduction.c:360-362), otherwise the
iterator-allocated result.  The external traversal primitive, copy and
fill collaborators, the inner-loop kernel and the floating-point status
checks are modelled as succeeding. -/
def PyUFunc_ReduceWrapper {α : Type} [Inhabited α]
    (operand : Arr α) (out : Option (Arr α)) (wheremask : Option (Arr Bool))
    (axis_flags : List Bool) (reorderable : Bool) (keepdims : Bool)
    (identity : Option α) (combine : α → α → α) (funcname : String) :
    Except ReduceError (ReduceOk α) :=
  if reorderable = false ∧ 1 < count_axes axis_flags then
    .error (.nonReorderableMultiAxis funcname)
  else if wheremask.isSome = true ∧ identity.isNone = true then
    .error (.whereWithoutIdentity funcname)
  else
    match out with
    | some o =>
        if o.shape.length ≠ resultAxesCount axis_flags keepdims then
          .error (.outputShapeMismatch funcname keepdims o.shape.length
                    (resultAxesCount axis_flags keepdims))
        else
          reduceCore operand o .callerOut axis_flags keepdims identity combine funcname
    | none =>
        reduceCore operand
          { shape := reduceOutShape operand.shape axis_flags keepdims,
            data := fun _ => default }
          .engineAllocated axis_flags keepdims identity combine funcname

/-- A multi-index is in bounds for a shape: same rank, each coordinate
below the extent. -/
def inBounds (shape ix : List Nat) : Prop :=
  ix.length = shape.length ∧ ∀ p ∈ ix.zip shape, p.1 < p.2

/-- The per-operand iterator flags of reduction.c, one record per
NPY_ITER_* mode bit used there. -/
structure IterOpFlags where
  readwrite : Bool
  readonly : Bool
  aligned : Bool
  allocate : Bool
  noSubtype : Bool
  noBroadcast : Bool
deriving DecidableEq, Repr

/-- op_flags[0], the result binding (reduction.c:235-238):
READWRITE, ALIGNED, ALLOCATE, NO_SUBTYPE. -/
def resultOpFlags : IterOpFlags :=
  { readwrite := true, readonly := false, aligned := true,
    allocate := true, noSubtype := true, noBroadcast := false }

/-- op_flags[1], the operand binding (reduction.c:239-241):
READONLY, ALIGNED, NO_BROADCAST. -/
def operandOpFlags : IterOpFlags :=
  { readwrite := false, readonly := true, aligned := true,
    allocate := false, noSubtype := false, noBroadcast := true }

/-- op_flags[2], the where-mask binding (reduction.c:251): READONLY. -/
def wheremaskOpFlags : IterOpFlags :=
  { readwrite := false, readonly := true, aligned := false,
    allocate := false, noSubtype := false, noBroadcast := false }

/-- The flags argument of the PyArray_NewFromDescr call that builds the
seeder's view of the operand (reduction.c:117-119) is the literal 0, so
the view does not request the NPY_ARRAY_WRITEABLE bit. -/
def opViewRequestsWriteable : Bool := false

theorem buildInitialView_zero (funcname : String) (keepdims : Bool)
    (l : List (Nat × Bool)) (h : ∃ p ∈ l, p.2 = true ∧ p.1 = 0) :
    buildInitialView funcname keepdims l = .error (.emptyReduction funcname) := by
  induction l with
  | nil => simp at h
  | cons hd tl ih =>
    obtain ⟨n, f⟩ := hd
    obtain ⟨p, hp, hflag, hzero⟩ := h
    rcases List.mem_cons.mp hp with rfl | hmem
    · simp only at hflag hzero
      simp [buildInitialView, hflag, hzero]
    · have htl := ih ⟨p, hmem, hflag, hzero⟩
      by_cases hf : f
      · by_cases hn : n = 0
        · simp [buildInitialView, hf, hn]
        · simp [buildInitialView, hf, hn, htl]
      · simp [buildInitialView, hf, htl]

theorem buildInitialView_error_kind (funcname : String) (keepdims : Bool)
    (l : List (Nat × Bool)) (e : ReduceError)
    (h : buildInitialView funcname keepdims l = .error e) :
    e = .emptyReduction funcname := by
  induction l with
  | nil => simp [buildInitialView] at h
  | cons hd tl ih =>
    obtain ⟨n, f⟩ := hd
    by_cases hf : f
    · by_cases hn : n = 0
      · simp [buildInitialView, hf, hn] at h
        exact h.symm
      · simp only [buildInitialView, hf, if_true, hn, if_false] at h
        cases htl : buildInitialView funcname keepdims tl with
        | error e2 =>
          rw [htl] at h
          simp at h
          rw [h] at htl
          exact ih htl
        | ok v =>
          rw [htl] at h
          obtain ⟨sh, size⟩ := v
          simp at h
    · simp only [buildInitialView, hf, if_false] at h
      cases htl : buildInitialView funcname keepdims tl with
      | error e2 =>
        rw [htl] at h
        simp at h
        rw [h] at htl
        exact ih htl
      | ok v =>
        rw [htl] at h
        obtain ⟨sh, size⟩ := v
        simp at h

theorem buildInitialView_ok (funcname : String) (keepdims : Bool)
    (l : List (Nat × Bool)) (h : ∀ p ∈ l, p.2 = true → p.1 ≠ 0) :
    ∃ sh, buildInitialView funcname keepdims l
      = .ok (sh, ((l.filter (fun p => !p.2)).map Prod.fst).prod) := by
  induction l with
  | nil => exact ⟨[], by simp [buildInitialView]⟩
  | cons hd tl ih =>
    obtain ⟨n, f⟩ := hd
    obtain ⟨sh, hsh⟩ := ih (fun p hp => h p (List.mem_cons_of_mem _ hp))
    by_cases hf : f
    · have hn : n ≠ 0 := h (n, f) (List.mem_cons_self _ _) (by simp [hf])
      refine ⟨if keepdims then 1 :: sh else sh, ?_⟩
      simp [buildInitialView, hf, hn, hsh]
    · refine ⟨n :: sh, ?_⟩
      simp [buildInitialView, hf, hsh, Nat.mul_comm]

theorem foldr_append_nil {γ : Type} (l : List γ) :
    l.foldr (fun _ acc => ([] : List (List Nat)) ++ acc) [] = [] := by
  induction l with
  | nil => rfl
  | cons x xs ih => simp only [List.foldr_cons, List.nil_append]; exact ih

theorem selIndices_eq_nil (shape : List Nat) (flags : List Bool)
    (base : List Nat) (h : ∃ p ∈ shape.zip flags, p.2 = true ∧ p.1 = 0) :
    selIndices shape flags base = [] := by
  induction shape generalizing flags base with
  | nil => simp at h
  | cons n ns ih =>
    cases flags with
    | nil => simp at h
    | cons f fs =>
      obtain ⟨p, hp, hflag, hzero⟩ := h
      rcases List.mem_cons.mp (by simpa using hp) with rfl | hmem
      · simp only at hflag hzero
        simp [selIndices, hflag, hzero]
      · have htl := ih fs base.tail ⟨p, hmem, hflag, hzero⟩
        by_cases hf : f
        · simp only [selIndices, List.headD_cons, hf, if_true, List.tail_cons, htl,
            List.map_nil]
          exact foldr_append_nil _
        · simp [selIndices, hf, htl]

theorem copyInitial_shape {α : Type} (result operand : Arr α)
    (axis_flags : List Bool) (funcname : String) (keepdims : Bool) :
    (PyArray_CopyInitialReduceValues result operand axis_flags funcname keepdims).2.1.shape
      = result.shape := by
  unfold PyArray_CopyInitialReduceValues
  split <;> rfl

theorem count_axes_le (flags : List Bool) : count_axes flags ≤ flags.length := by
  induction flags with
  | nil => simp [count_axes]
  | cons f fs ih => cases f <;> simp [count_axes] <;> omega

theorem resultAxesCount_true (flags : List Bool) :
    resultAxesCount flags true = flags.length := by
  induction flags with
  | nil => rfl
  | cons f fs ih => cases f <;> simp [resultAxesCount, ih] <;> omega

theorem resultAxesCount_false (flags : List Bool) :
    resultAxesCount flags false = flags.length - count_axes flags := by
  induction flags with
  | nil => rfl
  | cons f fs ih =>
    have hle := count_axes_le fs
    cases f <;> simp [resultAxesCount, count_axes, ih] <;> omega

theorem reduceOutShape_prod (shape : List Nat) (flags : List Bool) (k : Bool)
    (hlen : flags.length = shape.length) :
    (reduceOutShape shape flags k).prod = nonReducedProduct shape flags := by
  induction shape generalizing flags with
  | nil =>
    cases flags with
    | nil => cases k <;> rfl
    | cons f fs => simp at hlen
  | cons n ns ih =>
    cases flags with
    | nil => simp at hlen
    | cons f fs =>
      have hlen' : fs.length = ns.length := by simpa using hlen
      have hrec := ih fs hlen'
      cases f with
      | false => simp [reduceOutShape, nonReducedProduct, hrec, nonReducedProduct]
      | true => cases k <;> simp [reduceOutShape, nonReducedProduct, hrec]

theorem inBounds_prod_ne_zero (shape ix : List Nat) (h : inBounds shape ix) :
    shape.prod ≠ 0 := by
  induction shape generalizing ix with
  | nil => simp
  | cons n ns ih =>
    obtain ⟨hlen, hlt⟩ := h
    cases ix with
    | nil => simp at hlen
    | cons i is =>
      have hn : i < n := hlt (i, n) (by simp)
      have hns := ih is ⟨by simpa using hlen,
        fun p hp => hlt p (List.mem_cons_of_mem _ hp)⟩
      simp only [List.prod_cons]
      exact Nat.mul_ne_zero (by omega) hns

theorem expandIndex_length (flags : List Bool) (k : Bool) (ix : List Nat) :
    (expandIndex flags k ix).length = flags.length := by
  induction flags generalizing ix with
  | nil => rfl
  | cons f fs ih => cases f <;> cases k <;> simp [expandIndex, ih]

theorem expandIndex_flagged_zero (flags : List Bool) (k : Bool) (ix : List Nat) :
    ∀ p ∈ (expandIndex flags k ix).zip flags, p.2 = true → p.1 = 0 := by
  induction flags generalizing ix with
  | nil => intro p hp; simp [expandIndex] at hp
  | cons f fs ih =>
    intro p hp hflag
    cases f with
    | false =>
      rcases List.mem_cons.mp (by simpa [expandIndex] using hp) with rfl | hmem
      · simp at hflag
      · exact ih ix.tail p hmem hflag
    | true =>
      cases k with
      | false =>
        rcases List.mem_cons.mp (by simpa [expandIndex] using hp) with rfl | hmem
        · rfl
        · exact ih ix p hmem hflag
      | true =>
        rcases List.mem_cons.mp (by simpa [expandIndex] using hp) with rfl | hmem
        · rfl
        · exact ih ix.tail p hmem hflag

theorem selIndices_singleton (shape : List Nat) (flags : List Bool)
    (base : List Nat) (hf : flags.length = shape.length)
    (hb : base.length = shape.length)
    (hone : ∀ p ∈ shape.zip flags, p.2 = true → p.1 = 1)
    (hzero : ∀ p ∈ base.zip flags, p.2 = true → p.1 = 0) :
    selIndices shape flags base = [base] := by
  induction shape generalizing flags base with
  | nil =>
    cases flags with
    | nil =>
      cases base with
      | nil => rfl
      | cons b bs => simp at hb
    | cons f fs => simp at hf
  | cons n ns ih =>
    cases flags with
    | nil => simp at hf
    | cons f fs =>
      cases base with
      | nil => simp at hb
      | cons b bs =>
        have hf' : fs.length = ns.length := by simpa using hf
        have hb' : bs.length = ns.length := by simpa using hb
        have hone' : ∀ p ∈ ns.zip fs, p.2 = true → p.1 = 1 :=
          fun p hp => hone p (List.mem_cons_of_mem _ hp)
        have hzero' : ∀ p ∈ bs.zip fs, p.2 = true → p.1 = 0 :=
          fun p hp => hzero p (List.mem_cons_of_mem _ hp)
        have hrec := ih fs bs hf' hb' hone' hzero'
        cases f with
        | false => simp [selIndices, hrec]
        | true =>
          have hn : n = 1 := hone (n, true) (List.mem_cons_self _ _) rfl
          have hbz : b = 0 := hzero (b, true) (List.mem_cons_self _ _) rfl
          subst hn hbz
          simp [selIndices, hrec, List.range_succ, List.range_zero]

theorem reduceCore_identity_skip {α : Type} (operand binding : Arr α)
    (origin : ResultOrigin) (axis_flags : List Bool) (keepdims : Bool) (v : α)
    (combine : α → α → α) (funcname : String) :
    (reduceCore operand binding origin axis_flags keepdims (some v) combine
        funcname).toOption.map ReduceOk.skipFirstCount = some 0 := rfl

/-- Claim C1: for every operand, axis-flag vector and keepdims setting
(out, where-mask absent, reduction reorderable), if no identity is
supplied and some flagged axis has extent 0, reduce fails with the
empty-reduction error carrying the operation name; if an identity is
supplied instead, the call succeeds and every output element equals the
identity (every reduced selection is empty here, since a flagged axis
has extent 0). -/
theorem C1_empty_axis_reduction {α : Type} [Inhabited α] (operand : Arr α)
    (axis_flags : List Bool) (keepdims : Bool) (combine : α → α → α) (v : α)
    (funcname : String)
    (hzero : ∃ p ∈ operand.shape.zip axis_flags, p.2 = true ∧ p.1 = 0) :
    PyUFunc_ReduceWrapper operand none none axis_flags true keepdims none
        combine funcname = .error (.emptyReduction funcname)
    ∧ ∃ r, PyUFunc_ReduceWrapper operand none none axis_flags true keepdims
          (some v) combine funcname = .ok r ∧ ∀ outIx, r.data outIx = v := by
  constructor
  · have hb := buildInitialView_zero funcname keepdims
      (operand.shape.zip axis_flags) hzero
    simp [PyUFunc_ReduceWrapper, reduceCore, PyArray_CopyInitialReduceValues, hb]
  · refine ⟨_, rfl, ?_⟩
    intro outIx
    have hsel := selIndices_eq_nil operand.shape axis_flags
      (expandIndex axis_flags keepdims outIx) hzero
    simp [reduceCore, iterateLoop, hsel]

theorem C1_witness :
    (∃ p ∈ ([0].zip [true] : List (Nat × Bool)), p.2 = true ∧ p.1 = 0)
    ∧ (PyUFunc_ReduceWrapper (α := Nat) ⟨[0], fun _ => 0⟩ none none [true]
          true false none (fun a b => a + b) "maximum"
        = .error (.emptyReduction "maximum")
      ∧ ∃ r, PyUFunc_ReduceWrapper (α := Nat) ⟨[0], fun _ => 0⟩ none none
            [true] true false (some 7) (fun a b => a + b) "maximum" = .ok r
          ∧ ∀ outIx, r.data outIx = 7) :=
  ⟨by decide,
   C1_empty_axis_reduction ⟨[0], fun _ => 0⟩ [true] false (fun a b => a + b)
     7 "maximum" (by decide)⟩

/-- Claim C2: with more than one flagged axis and a non-reorderable
reduction, reduce fails with the non-reorderable multi-axis error,
regardless of the operand's shape, out, where-mask, identity or
keepdims; the check is the first thing the driver does
(reduction.c:204-210), before the iterator and result are created. -/
theorem C2_non_reorderable_multi_axis {α : Type} [Inhabited α]
    (operand : Arr α) (out : Option (Arr α)) (wheremask : Option (Arr Bool))
    (axis_flags : List Bool) (keepdims : Bool) (identity : Option α)
    (combine : α → α → α) (funcname : String)
    (h : 1 < count_axes axis_flags) :
    PyUFunc_ReduceWrapper operand out wheremask axis_flags false keepdims
      identity combine funcname = .error (.nonReorderableMultiAxis funcname) := by
  simp [PyUFunc_ReduceWrapper, h]

theorem C2_witness :
    1 < count_axes [true, true]
    ∧ PyUFunc_ReduceWrapper (α := Nat) ⟨[2, 3], fun _ => 0⟩ none none
        [true, true] false false none (fun a b => a - b) "subtract"
      = .error (.nonReorderableMultiAxis "subtract") :=
  ⟨by decide,
   C2_non_reorderable_multi_axis ⟨[2, 3], fun _ => 0⟩ none none [true, true]
     false none (fun a b => a - b) "subtract" (by decide)⟩

/-- Claim C3: a where-mask together with an absent identity makes reduce
fail with the where-without-identity error, for every operand, axis-flag
vector, keepdims setting and out argument (reduction.c:212-218). -/
theorem C3_where_without_identity {α : Type} [Inhabited α] (operand : Arr α)
    (out : Option (Arr α)) (m : Arr Bool) (axis_flags : List Bool)
    (keepdims : Bool) (combine : α → α → α) (funcname : String) :
    PyUFunc_ReduceWrapper operand out (some m) axis_flags true keepdims none
      combine funcname = .error (.whereWithoutIdentity funcname) := by
  simp [PyUFunc_ReduceWrapper]

/-- Claim C4: when every flagged axis has non-zero extent, the
no-identity seeder succeeds (no error) and returns exactly the product
of the extents of the non-reduced axes, the skip_first_count
(reduction.c:91-141). -/
theorem C4_seed_returns_skip_count {α : Type} (result operand : Arr α)
    (axis_flags : List Bool) (funcname : String) (keepdims : Bool)
    (_hlen : axis_flags.length = operand.shape.length)
    (hnz : ∀ p ∈ operand.shape.zip axis_flags, p.2 = true → p.1 ≠ 0) :
    (PyArray_CopyInitialReduceValues result operand axis_flags funcname
        keepdims).1 = none
    ∧ (PyArray_CopyInitialReduceValues result operand axis_flags funcname
        keepdims).2.2 = nonReducedProduct operand.shape axis_flags := by
  obtain ⟨sh, hsh⟩ := buildInitialView_ok funcname keepdims
    (operand.shape.zip axis_flags) hnz
  constructor
  · simp [PyArray_CopyInitialReduceValues, hsh]
  · simp [PyArray_CopyInitialReduceValues, hsh, nonReducedProduct]

theorem C4_witness :
    ([false, true] : List Bool).length = ([2, 3] : List Nat).length
    ∧ (∀ p ∈ ([2, 3].zip [false, true] : List (Nat × Bool)),
        p.2 = true → p.1 ≠ 0)
    ∧ ((PyArray_CopyInitialReduceValues (α := Nat) ⟨[2], fun _ => 0⟩
          ⟨[2, 3], fun _ => 0⟩ [false, true] "maximum" false).1 = none
      ∧ (PyArray_CopyInitialReduceValues (α := Nat) ⟨[2], fun _ => 0⟩
          ⟨[2, 3], fun _ => 0⟩ [false, true] "maximum" false).2.2
        = nonReducedProduct [2, 3] [false, true]) :=
  ⟨by decide, by decide,
   C4_seed_returns_skip_count ⟨[2], fun _ => 0⟩ ⟨[2, 3], fun _ => 0⟩
     [false, true] "maximum" false (by decide) (by decide)⟩

/-- Claim C5, counterexample: the claim asserts that for a no-identity
reduction over a single flagged axis of extent 1 the skip_first_count
produced by seeding is 0.  On operand shape [1] with axis_flags [true]
the code returns the product of the non-reduced extents, which is 1,
not 0 (the comments at reduction.c:133-141 and 318-322 note that 0 is a
possible optimization that is not performed). -/
theorem C5_counterexample :
    (PyUFunc_ReduceWrapper (α := Nat) ⟨[1], fun _ => 5⟩ none none [true] true
        false none (fun a b => a + b) "maximum").toOption.map
      ReduceOk.skipFirstCount = some 1
    ∧ (PyUFunc_ReduceWrapper (α := Nat) ⟨[1], fun _ => 5⟩ none none [true]
        true false none (fun a b => a + b) "maximum").toOption.map
      ReduceOk.skipFirstCount ≠ some 0 := by
  constructor
  · rfl
  · decide

/-- Claim C5 as amended: for a no-identity reduction over exactly one
flagged axis of extent 1 (out, where-mask absent), the call succeeds,
the result is the operand reshaped/squeezed per keepdims (within the
result's bounds), and the skip_first_count produced by seeding is the
product of the non-reduced extents, not 0 — the whole seeded slice is
the full answer and the loop skips every element of it. -/
theorem C5_single_axis_extent_one {α : Type} [Inhabited α] (operand : Arr α)
    (axis_flags : List Bool) (keepdims : Bool) (combine : α → α → α)
    (funcname : String)
    (hlen : axis_flags.length = operand.shape.length)
    (_hcount : count_axes axis_flags = 1)
    (hone : ∀ p ∈ operand.shape.zip axis_flags, p.2 = true → p.1 = 1) :
    ∃ r, PyUFunc_ReduceWrapper operand none none axis_flags true keepdims none
          combine funcname = .ok r
      ∧ r.shape = reduceOutShape operand.shape axis_flags keepdims
      ∧ (∀ outIx, inBounds r.shape outIx →
          r.data outIx = operand.data (expandIndex axis_flags keepdims outIx))
      ∧ r.skipFirstCount = nonReducedProduct operand.shape axis_flags := by
  have hnz : ∀ p ∈ operand.shape.zip axis_flags, p.2 = true → p.1 ≠ 0 :=
    fun p hp hf => by rw [hone p hp hf]; exact one_ne_zero
  obtain ⟨sh, hsh⟩ := buildInitialView_ok funcname keepdims
    (operand.shape.zip axis_flags) hnz
  have hcopy : PyArray_CopyInitialReduceValues
      (Arr.mk (reduceOutShape operand.shape axis_flags keepdims)
        (fun _ => (default : α)))
      operand axis_flags funcname keepdims
      = (none,
         { shape := reduceOutShape operand.shape axis_flags keepdims,
           data := fun ix => operand.data (expandIndex axis_flags keepdims ix) },
         nonReducedProduct operand.shape axis_flags) := by
    unfold PyArray_CopyInitialReduceValues
    rw [hsh]
    rfl
  have hwrap : PyUFunc_ReduceWrapper operand none none axis_flags true keepdims
      none combine funcname
      = reduceCore operand
          (Arr.mk (reduceOutShape operand.shape axis_flags keepdims)
            (fun _ => (default : α)))
          .engineAllocated axis_flags keepdims none combine funcname := rfl
  rw [hwrap]
  unfold reduceCore
  rw [hcopy]
  refine ⟨⟨.engineAllocated,
           reduceOutShape operand.shape axis_flags keepdims,
           (iterateLoop
             ⟨reduceOutShape operand.shape axis_flags keepdims,
              fun ix => operand.data (expandIndex axis_flags keepdims ix)⟩
             operand axis_flags keepdims combine
             (nonReducedProduct operand.shape axis_flags)).data,
           nonReducedProduct operand.shape axis_flags⟩, rfl, rfl, ?_, rfl⟩
  intro outIx hix
  have hskipne : nonReducedProduct operand.shape axis_flags ≠ 0 := by
    have hpne := inBounds_prod_ne_zero _ _ hix
    rwa [reduceOutShape_prod operand.shape axis_flags keepdims hlen] at hpne
  have hsel := selIndices_singleton operand.shape axis_flags
    (expandIndex axis_flags keepdims outIx) hlen
    (by rw [expandIndex_length, hlen])
    hone (expandIndex_flagged_zero axis_flags keepdims outIx)
  simp [iterateLoop, hsel, hskipne]

theorem C5_amended_witness :
    ([true] : List Bool).length = ([1] : List Nat).length
    ∧ count_axes [true] = 1
    ∧ (∀ p ∈ ([1].zip [true] : List (Nat × Bool)), p.2 = true → p.1 = 1)
    ∧ ∃ r, PyUFunc_ReduceWrapper (α := Nat) ⟨[1], fun _ => 5⟩ none none [true]
          true false none (fun a b => a + b) "maximum" = .ok r
      ∧ r.shape = reduceOutShape [1] [true] false
      ∧ (∀ outIx, inBounds r.shape outIx →
          r.data outIx = (5 : Nat))
      ∧ r.skipFirstCount = nonReducedProduct [1] [true] :=
  ⟨by decide, by decide, by decide,
   C5_single_axis_extent_one ⟨[1], fun _ => 5⟩ [true] false (fun a b => a + b)
     "maximum" (by decide) (by decide) (by decide)⟩

theorem reduceCore_ok_fields {α : Type} (operand binding : Arr α)
    (origin : ResultOrigin) (axis_flags : List Bool) (keepdims : Bool)
    (identity : Option α) (combine : α → α → α) (funcname : String)
    (r : ReduceOk α)
    (h : reduceCore operand binding origin axis_flags keepdims identity combine
        funcname = .ok r) :
    r.origin = origin ∧ r.shape = binding.shape := by
  cases identity with
  | some v =>
    injection h with h
    subst h
    exact ⟨rfl, rfl⟩
  | none =>
    unfold reduceCore at h
    cases hc : PyArray_CopyInitialReduceValues binding operand axis_flags
        funcname keepdims with
    | mk fst rest =>
      obtain ⟨seeded, skip⟩ := rest
      cases fst with
      | some e =>
        rw [hc] at h
        exact Except.noConfusion h
      | none =>
        rw [hc] at h
        injection h with h
        subst h
        refine ⟨rfl, ?_⟩
        have hsh := copyInitial_shape binding operand axis_flags funcname keepdims
        rw [hc] at hsh
        exact hsh

theorem reduceCore_identity_ok_skip {α : Type} (operand binding : Arr α)
    (origin : ResultOrigin) (axis_flags : List Bool) (keepdims : Bool) (v : α)
    (combine : α → α → α) (funcname : String) (r : ReduceOk α)
    (h : reduceCore operand binding origin axis_flags keepdims (some v) combine
        funcname = .ok r) :
    r.skipFirstCount = 0 := by
  injection h with h
  subst h
  rfl

/-- Claim C6: a caller-supplied out array whose rank differs from the
computed output rank (the operand rank when keepdims, the operand rank
minus the number of flagged axes otherwise) makes reduce fail with the
output-shape-mismatch error; the error payload records the keepdims
flag (the two C messages at reduction.c:277-288 differ exactly there)
together with the found and expected ranks. -/
theorem C6_output_rank_mismatch {α : Type} [Inhabited α] (operand o : Arr α)
    (axis_flags : List Bool) (keepdims : Bool) (identity : Option α)
    (combine : α → α → α) (funcname : String)
    (hlen : axis_flags.length = operand.shape.length)
    (hrank : o.shape.length ≠
      (if keepdims then operand.shape.length
       else operand.shape.length - count_axes axis_flags)) :
    PyUFunc_ReduceWrapper operand (some o) none axis_flags true keepdims
        identity combine funcname
      = .error (.outputShapeMismatch funcname keepdims o.shape.length
          (if keepdims then operand.shape.length
           else operand.shape.length - count_axes axis_flags)) := by
  have hres : resultAxesCount axis_flags keepdims
      = (if keepdims then operand.shape.length
         else operand.shape.length - count_axes axis_flags) := by
    cases keepdims
    · simp [resultAxesCount_false, hlen]
    · simp [resultAxesCount_true, hlen]
  rw [show PyUFunc_ReduceWrapper operand (some o) none axis_flags true keepdims
      identity combine funcname
      = (if o.shape.length ≠ resultAxesCount axis_flags keepdims then
          .error (.outputShapeMismatch funcname keepdims o.shape.length
                    (resultAxesCount axis_flags keepdims))
        else
          reduceCore operand o .callerOut axis_flags keepdims identity combine
            funcname) from rfl]
  rw [hres]
  simp [hrank]

theorem C6_witness :
    ([true] : List Bool).length = ([2] : List Nat).length
    ∧ (([2] : List Nat).length ≠
        (if false then ([2] : List Nat).length
         else ([2] : List Nat).length - count_axes [true]))
    ∧ PyUFunc_ReduceWrapper (α := Nat) ⟨[2], fun _ => 0⟩
        (some ⟨[2], fun _ => 0⟩) none [true] true false none
        (fun a b => a + b) "add"
      = .error (.outputShapeMismatch "add" false 1 0) :=
  ⟨by decide, by decide,
   C6_output_rank_mismatch ⟨[2], fun _ => 0⟩ ⟨[2], fun _ => 0⟩ [true] false
     none (fun a b => a + b) "add" (by decide) (by decide)⟩

/-- Claim C7: whenever a call with an explicit out argument succeeds,
the returned object is the caller's out array itself (the driver
replaces the iterator's internal result binding with out before
returning, reduction.c:360-362); in this embedding that is recorded by
the callerOut origin tag and the preserved shape. -/
theorem C7_returns_caller_out {α : Type} [Inhabited α] (operand o : Arr α)
    (wheremask : Option (Arr Bool)) (axis_flags : List Bool)
    (reorderable keepdims : Bool) (identity : Option α)
    (combine : α → α → α) (funcname : String)
    (hok : (PyUFunc_ReduceWrapper operand (some o) wheremask axis_flags
        reorderable keepdims identity combine funcname).toOption.isSome
        = true) :
    ∃ r, PyUFunc_ReduceWrapper operand (some o) wheremask axis_flags
          reorderable keepdims identity combine funcname = .ok r
      ∧ r.origin = .callerOut ∧ r.shape = o.shape := by
  cases hw : PyUFunc_ReduceWrapper operand (some o) wheremask axis_flags
      reorderable keepdims identity combine funcname with
  | error e =>
    rw [hw] at hok
    simp [Except.toOption] at hok
  | ok r =>
    refine ⟨r, rfl, ?_⟩
    have h := hw
    simp only [PyUFunc_ReduceWrapper] at h
    split at h
    · exact Except.noConfusion h
    · split at h
      · exact Except.noConfusion h
      · split at h
        · exact Except.noConfusion h
        · exact reduceCore_ok_fields operand o .callerOut axis_flags keepdims
            identity combine funcname r h

theorem C7_witness :
    ((PyUFunc_ReduceWrapper (α := Nat) ⟨[2], fun _ => 1⟩
        (some ⟨[], fun _ => 0⟩) none [true] true false (some 0)
        (fun a b => a + b) "add").toOption.isSome = true)
    ∧ ∃ r, PyUFunc_ReduceWrapper (α := Nat) ⟨[2], fun _ => 1⟩
          (some ⟨[], fun _ => 0⟩) none [true] true false (some 0)
          (fun a b => a + b) "add" = .ok r
        ∧ r.origin = .callerOut ∧ r.shape = ([] : List Nat) :=
  ⟨by decide,
   C7_returns_caller_out ⟨[2], fun _ => 1⟩ ⟨[], fun _ => 0⟩ none [true] true
     false (some 0) (fun a b => a + b) "add" (by decide)⟩

/-- Claim C8: the operand is never mutated by the engine.  The traversal
primitive binds the operand strictly read-only — op_flags[1] at
reduction.c:239-241 sets READONLY, not READWRITE, and never ALLOCATE —
and the seeder builds its first-slice view of the operand with a flags
argument of 0 (reduction.c:117-119), i.e. without requesting
writeability.  In this pure embedding, where all engine reads go
through an immutable lookup function, these configuration facts are the
observable content of the claim. -/
theorem C8_operand_never_mutated :
    operandOpFlags.readonly = true ∧ operandOpFlags.readwrite = false
    ∧ operandOpFlags.allocate = false
    ∧ opViewRequestsWriteable = false := by decide

/-- Claim C9: whenever an identity is supplied and the call succeeds,
the skip_first_count handed to the accumulation callback is 0 (it keeps
its initialization from reduction.c:195, since only the no-identity
branch at reduction.c:317-328 overwrites it); contrapositively, a
non-zero skip count implies the no-identity path was taken. -/
theorem C9_identity_skip_count {α : Type} [Inhabited α] (operand : Arr α)
    (out : Option (Arr α)) (wheremask : Option (Arr Bool))
    (axis_flags : List Bool) (reorderable keepdims : Bool)
    (identity : Option α) (combine : α → α → α) (funcname : String)
    (hok : (PyUFunc_ReduceWrapper operand out wheremask axis_flags reorderable
        keepdims identity combine funcname).toOption.isSome = true) :
    (identity.isSome = true →
      (PyUFunc_ReduceWrapper operand out wheremask axis_flags reorderable
          keepdims identity combine funcname).toOption.map
        ReduceOk.skipFirstCount = some 0)
    ∧ ((PyUFunc_ReduceWrapper operand out wheremask axis_flags reorderable
          keepdims identity combine funcname).toOption.map
        ReduceOk.skipFirstCount ≠ some 0 → identity = none) := by
  cases identity with
  | none => exact ⟨by simp, fun _ => rfl⟩
  | some v =>
    have hmain : (PyUFunc_ReduceWrapper operand out wheremask axis_flags
        reorderable keepdims (some v) combine funcname).toOption.map
        ReduceOk.skipFirstCount = some 0 := by
      cases hw : PyUFunc_ReduceWrapper operand out wheremask axis_flags
          reorderable keepdims (some v) combine funcname with
      | error e =>
        rw [hw] at hok
        simp [Except.toOption] at hok
      | ok r =>
        have h := hw
        simp only [PyUFunc_ReduceWrapper] at h
        suffices hskip : r.skipFirstCount = 0 by
          simp [Except.toOption, hskip]
        split at h
        · exact Except.noConfusion h
        · split at h
          · exact Except.noConfusion h
          · split at h
            · split at h
              · exact Except.noConfusion h
              · exact reduceCore_identity_ok_skip _ _ _ _ _ _ _ _ _ h
            · exact reduceCore_identity_ok_skip _ _ _ _ _ _ _ _ _ h
    exact ⟨fun _ => hmain, fun hne => absurd hmain hne⟩

theorem C9_witness :
    ((PyUFunc_ReduceWrapper (α := Nat) ⟨[2], fun _ => 3⟩ none none [true] true
        false (some 0) (fun a b => a + b) "add").toOption.isSome = true)
    ∧ (((some 0 : Option Nat).isSome = true →
        (PyUFunc_ReduceWrapper (α := Nat) ⟨[2], fun _ => 3⟩ none none [true]
            true false (some 0) (fun a b => a + b) "add").toOption.map
          ReduceOk.skipFirstCount = some 0)
      ∧ ((PyUFunc_ReduceWrapper (α := Nat) ⟨[2], fun _ => 3⟩ none none [true]
            true false (some 0) (fun a b => a + b) "add").toOption.map
          ReduceOk.skipFirstCount ≠ some 0 → (some 0 : Option Nat) = none)) :=
  ⟨by decide,
   C9_identity_skip_count ⟨[2], fun _ => 3⟩ none none [true] true false
     (some 0) (fun a b => a + b) "add" (by decide)⟩

/-- Claim C10: when the no-identity seeder fails with the
empty-reduction error, the result is left completely unchanged: the
zero-extent scan over the flagged axes (reduction.c:93-113) runs to the
error return before the copy into the result (reduction.c:127) is ever
performed, and the empty-reduction error is the only error this scan
can raise. -/
theorem C10_seed_error_leaves_result {α : Type} (result operand : Arr α)
    (axis_flags : List Bool) (funcname : String) (keepdims : Bool)
    (e : ReduceError)
    (herr : (PyArray_CopyInitialReduceValues result operand axis_flags
        funcname keepdims).1 = some e) :
    (PyArray_CopyInitialReduceValues result operand axis_flags funcname
        keepdims).2.1 = result
    ∧ e = .emptyReduction funcname := by
  cases hb : buildInitialView funcname keepdims (operand.shape.zip axis_flags)
      with
  | error e2 =>
    have hkind := buildInitialView_error_kind funcname keepdims _ e2 hb
    unfold PyArray_CopyInitialReduceValues at herr ⊢
    rw [hb] at herr ⊢
    have he : e2 = e := by injection herr
    constructor
    · rfl
    · rw [← he]
      exact hkind
  | ok v =>
    obtain ⟨sh, size⟩ := v
    unfold PyArray_CopyInitialReduceValues at herr
    rw [hb] at herr
    exact Option.noConfusion herr

theorem C10_witness :
    ((PyArray_CopyInitialReduceValues (α := Nat) ⟨[], fun _ => 0⟩
        ⟨[0], fun _ => 0⟩ [true] "maximum" false).1
      = some (.emptyReduction "maximum"))
    ∧ ((PyArray_CopyInitialReduceValues (α := Nat) ⟨[], fun _ => 0⟩
          ⟨[0], fun _ => 0⟩ [true] "maximum" false).2.1
        = (⟨[], fun _ => 0⟩ : Arr Nat)
      ∧ (ReduceError.emptyReduction "maximum")
        = .emptyReduction "maximum") :=
  ⟨rfl,
   C10_seed_error_leaves_result ⟨[], fun _ => 0⟩ ⟨[0], fun _ => 0⟩ [true]
     "maximum" false (.emptyReduction "maximum") rfl⟩

example : count_axes [true, false, true] = 2 := by decide
example : resultAxesCount [true, false] true = 2 := by decide
example : resultAxesCount [true, false] false = 1 := by decide
example : reduceOutShape [2, 3] [false, true] false = [2] := by decide
example : reduceOutShape [2, 3] [false, true] true = [2, 1] := by decide
example : expandIndex [false, true] false [1] = [1, 0] := by decide
example : selIndices [2, 3] [false, true] [1, 0] =
    [[1, 0], [1, 1], [1, 2]] := by decide
example : nonReducedProduct [2, 3] [false, true] = 2 := by decide

end Reduction
